import Mathlib

/-!
Shallow embedding of the Rich-Uncle-Scrooge personal-finance ledger core:
the ledger mutation engine (src/services/ledger.py) and the pending-action
confirmation state machine (src/bot/handlers.py).

Monetary amounts are modelled as `Int` (exact fixed-point decimal values in
minor units); the Python code uses `Decimal` and only ever adds, subtracts
and compares amounts, so this is exact.  Timestamps are opaque `Int`
instants.  Database rows are lists kept in insertion (creation) order;
primary-key row updates are modelled by `modifyP`, which rewrites the first
matching element, and row deletion by `List.eraseP`.
-/

namespace Scrooge

/-! ## Data model (src/db/models.py) -/

inductive TransactionType
  | INCOME
  | EXPENSE
  | TRANSFER
deriving DecidableEq, Repr

inductive ActionType
  | INCOME
  | EXPENSE
  | TRANSFER
  | ACCOUNT_ADD
  | ACCOUNT_DELETE
  | ACCOUNT_RENAME
  | SET_DEFAULT_ACCOUNT
  | EDIT_TRANSACTION
  | DELETE_TRANSACTION
  | BATCH
  | SHEETS_IMPORT
  | CLEAR_ALL_DATA
  | CLARIFICATION
deriving DecidableEq, Repr

inductive PendingStatus
  | PENDING
  | CONFIRMED
  | CANCELLED
  | EXPIRED
deriving DecidableEq, Repr

structure User where
  id : Nat
  tg_user_id : Nat
  default_account_id : Option Nat
deriving DecidableEq, Repr

structure Account where
  id : Nat
  user_id : Nat
  name : String
  currency : String
  balance : Int
  is_default : Bool
deriving DecidableEq, Repr

structure Transaction where
  id : Nat
  user_id : Nat
  type : TransactionType
  amount : Int
  currency : String
  account_id : Option Nat
  from_account_id : Option Nat
  to_account_id : Option Nat
  category : Option String
  subcategory : Option String
  description : Option String
  operation_date : Int
deriving DecidableEq, Repr

/-! ## Payloads of pending actions (JSON `payload_json` in the source) -/

/-- The `account_new` sub-object of an intent's field bag. -/
structure AccountNew where
  name : String
  currency : Option String
  initial_balance : Option Int
deriving DecidableEq, Repr

/-- The `data` field bag of a single parsed intent, with every field
optional exactly as a JSON dict lookup is. -/
structure OpData where
  amount : Option Int
  currency : Option String
  account_name : Option String
  from_account_name : Option String
  to_account_name : Option String
  to_amount : Option Int
  to_currency : Option String
  category : Option String
  subcategory : Option String
  description : Option String
  operation_date : Option Int
  account_new : Option AccountNew
  account_old_name : Option String
  account_new_name : Option String
  transaction_id : Option Nat
  new_amount : Option Int
  new_category : Option String
  new_description : Option String
deriving DecidableEq, Repr

/-- An `OpData` with every field absent, mirroring an empty JSON dict. -/
def OpData.empty : OpData :=
  ⟨none, none, none, none, none, none, none, none, none, none, none, none,
   none, none, none, none, none, none⟩

structure ImportedAccount where
  name : String
  currency : String
  initial_balance : Int
  is_default : Bool
deriving DecidableEq, Repr

structure ImportedTx where
  account_name : Option String
  transaction_type : String
  amount : Int
  currency : String
  category : Option String
  description : Option String
  operation_date : Option Int
deriving DecidableEq, Repr

structure ImportedData where
  accounts : List ImportedAccount
  transactions : List ImportedTx
deriving DecidableEq, Repr

/-- The JSON payload of a pending action: `intent` (defaulted to `""`),
an optional `data` dict, a list of batch `operations`, and the
`imported_data` of a spreadsheet import. -/
structure Payload where
  intent : String
  data : Option OpData
  operations : List (String × OpData)
  imported_data : ImportedData
deriving DecidableEq, Repr

structure PendingAction where
  id : Nat
  user_id : Nat
  action_type : ActionType
  payload : Payload
  expires_at : Int
  status : PendingStatus
deriving DecidableEq, Repr

/-- The whole persisted state: one SQL database. `nextTxId` and
`nextAccountId` model the autoincrement primary-key counters. -/
structure DB where
  users : List User
  accounts : List Account
  transactions : List Transaction
  pendings : List PendingAction
  nextTxId : Nat
  nextAccountId : Nat
deriving DecidableEq, Repr

/-! ## Row-update combinator -/

/-- Rewrite the first element satisfying `p` (the row found by a
primary-key ORM query); leave the list unchanged when none matches. -/
def modifyP (p : α → Bool) (f : α → α) : List α → List α
  | [] => []
  | x :: xs => if p x then f x :: xs else x :: modifyP p f xs

/-! ## Python-truthiness helpers (`or`, `if x:` on JSON values) -/

/-- `x or d` for an optional string: `None` and `""` are falsy. -/
def pyOrStr (o : Option String) (d : String) : String :=
  match o with
  | none => d
  | some s => if s == "" then d else s

/-- `if x:` truthiness of an optional string. -/
def truthyStr (o : Option String) : Option String :=
  match o with
  | none => none
  | some s => if s == "" then none else some s

/-- `if x:` truthiness of an optional number: `0` is falsy. -/
def truthyInt (o : Option Int) : Option Int :=
  match o with
  | none => none
  | some v => if v == 0 then none else some v

/-- Python `str.lower()`, character-wise (ASCII case mapping). -/
def strLower (s : String) : String := ⟨s.data.map Char.toLower⟩

/-- Python `str.upper()`, character-wise (ASCII case mapping). -/
def strUpper (s : String) : String := ⟨s.data.map Char.toUpper⟩

/-- Whether `needle` is an initial segment of `hay`. -/
def isHeadSeg : List Char → List Char → Bool
  | [], _ => true
  | _ :: _, [] => false
  | a :: as, b :: bs => a == b && isHeadSeg as bs

/-- Python's substring test `needle in hay` on lowered names. -/
def isSubstr (needle : List Char) : List Char → Bool
  | [] => isHeadSeg needle []
  | b :: bs => isHeadSeg needle (b :: bs) || isSubstr needle bs

/-! ## Query helpers (SQLAlchemy `query(...).filter(...).first()`) -/

def DB.findUser (db : DB) (uid : Nat) : Option User :=
  db.users.find? (fun u => u.id == uid)

def DB.findAccount (db : DB) (accId uid : Nat) : Option Account :=
  db.accounts.find? (fun a => a.id == accId && a.user_id == uid)

def DB.findAccountById (db : DB) (accId : Nat) : Option Account :=
  db.accounts.find? (fun a => a.id == accId)

def DB.updateAccount (db : DB) (accId : Nat) (f : Account → Account) : DB :=
  { db with accounts := modifyP (fun a => a.id == accId) f db.accounts }

def DB.updateUser (db : DB) (uid : Nat) (f : User → User) : DB :=
  { db with users := modifyP (fun u => u.id == uid) f db.users }

/-- Balance of the account row with the given id, when present. -/
def DB.balanceOf (db : DB) (accId : Nat) : Option Int :=
  (db.findAccountById accId).map (fun a => a.balance)

/-! ## Ledger mutation engine (src/services/ledger.py)

Each operation is atomic: it either returns the whole committed new state
or an error with the state untouched, exactly as the Python functions
commit on success and roll back on failure.  `now` stands for
`now_in_timezone(user.timezone)`, the default operation date. -/

/-- `find_account_by_name` (ledger.py:27): exact case-insensitive match
first, then, unless `exact_only`, a containment match in either
direction; the user's accounts are scanned in creation order. -/
def find_account_by_name (db : DB) (user_id : Nat) (account_name : String)
    (exact_only : Bool) : Option Account :=
  let accounts := db.accounts.filter (fun a => a.user_id == user_id)
  match accounts.find? (fun acc => strLower acc.name == strLower account_name) with
  | some acc => some acc
  | none =>
    if exact_only then none
    else
      let q := strLower account_name
      accounts.find? (fun acc =>
        isSubstr q.data (strLower acc.name).data ||
        isSubstr (strLower acc.name).data q.data)

/-- `add_income` (ledger.py:48): balance += amount and a new INCOME row
storing the `currency` argument as passed. -/
def add_income (db : DB) (user_id : Nat) (amount : Int) (currency : String)
    (account_id : Nat) (category subcategory description : Option String)
    (operation_date : Option Int) (now : Int) : Except String (DB × Transaction) :=
  let opDate := operation_date.getD now
  match db.findAccount account_id user_id with
  | none =>
    .error ("Account " ++ toString account_id ++ " not found for user " ++ toString user_id)
  | some _ =>
    let db := db.updateAccount account_id (fun a => { a with balance := a.balance + amount })
    let tx : Transaction :=
      { id := db.nextTxId, user_id := user_id, type := .INCOME, amount := amount,
        currency := currency, account_id := some account_id, from_account_id := none,
        to_account_id := none, category := category, subcategory := subcategory,
        description := description, operation_date := opDate }
    .ok ({ db with transactions := db.transactions ++ [tx], nextTxId := db.nextTxId + 1 }, tx)

/-- `add_expense` (ledger.py:98): fails when balance < amount, else
balance -= amount and a new EXPENSE row. -/
def add_expense (db : DB) (user_id : Nat) (amount : Int) (currency : String)
    (account_id : Nat) (category subcategory description : Option String)
    (operation_date : Option Int) (now : Int) : Except String (DB × Transaction) :=
  let opDate := operation_date.getD now
  match db.findAccount account_id user_id with
  | none =>
    .error ("Account " ++ toString account_id ++ " not found for user " ++ toString user_id)
  | some account =>
    if account.balance < amount then
      .error ("Insufficient balance: " ++ toString account.balance ++ " < " ++ toString amount)
    else
      let db := db.updateAccount account_id (fun a => { a with balance := a.balance - amount })
      let tx : Transaction :=
        { id := db.nextTxId, user_id := user_id, type := .EXPENSE, amount := amount,
          currency := currency, account_id := some account_id, from_account_id := none,
          to_account_id := none, category := category, subcategory := subcategory,
          description := description, operation_date := opDate }
      .ok ({ db with transactions := db.transactions ++ [tx], nextTxId := db.nextTxId + 1 }, tx)

/-- `transfer` (ledger.py:151): requires both accounts and
from.balance >= amount; debits `amount`, credits `to_amount` when given
else `amount`, and records one TRANSFER row holding both account
references (the credited amount is not persisted on the row). -/
def transfer (db : DB) (user_id : Nat) (amount : Int) (currency : String)
    (from_account_id to_account_id : Nat) (to_amount : Option Int)
    (to_currency : Option String) (description : Option String)
    (operation_date : Option Int) (now : Int) : Except String (DB × Transaction) :=
  let _ := to_currency
  let opDate := operation_date.getD now
  match db.findAccount from_account_id user_id with
  | none => .error ("From account " ++ toString from_account_id ++ " not found")
  | some from_account =>
    match db.findAccount to_account_id user_id with
    | none => .error ("To account " ++ toString to_account_id ++ " not found")
    | some _ =>
      if from_account.balance < amount then
        .error ("Insufficient balance: " ++ toString from_account.balance ++ " < " ++ toString amount)
      else
        let credit_amount := to_amount.getD amount
        let db := db.updateAccount from_account_id (fun a => { a with balance := a.balance - amount })
        let db := db.updateAccount to_account_id (fun a => { a with balance := a.balance + credit_amount })
        let tx : Transaction :=
          { id := db.nextTxId, user_id := user_id, type := .TRANSFER, amount := amount,
            currency := currency, account_id := none,
            from_account_id := some from_account_id, to_account_id := some to_account_id,
            category := none, subcategory := none, description := description,
            operation_date := opDate }
        .ok ({ db with transactions := db.transactions ++ [tx], nextTxId := db.nextTxId + 1 }, tx)

/-- `create_account` (ledger.py:219): the user's first account is marked
default and becomes the user's default account reference. -/
def create_account (db : DB) (user_id : Nat) (name : String) (currency : String)
    (initial_balance : Int) : DB × Account :=
  let is_first_account := (db.accounts.filter (fun a => a.user_id == user_id)).length == 0
  let account : Account :=
    { id := db.nextAccountId, user_id := user_id, name := name, currency := currency,
      balance := initial_balance, is_default := is_first_account }
  let db := { db with accounts := db.accounts ++ [account],
                      nextAccountId := db.nextAccountId + 1 }
  let db :=
    if is_first_account then
      db.updateUser user_id (fun u => { u with default_account_id := some account.id })
    else db
  (db, account)

/-- `delete_account` (ledger.py:253): only a zero-balance account may be
deleted. -/
def delete_account (db : DB) (user_id : Nat) (account_id : Nat) : Except String DB :=
  match db.findAccount account_id user_id with
  | none => .error ("Account " ++ toString account_id ++ " not found")
  | some account =>
    if account.balance != 0 then
      .error ("Cannot delete account with non-zero balance: " ++ toString account.balance)
    else
      .ok { db with accounts :=
              db.accounts.eraseP (fun a => a.id == account_id && a.user_id == user_id) }

/-- `rename_account` (ledger.py:272). -/
def rename_account (db : DB) (user_id : Nat) (account_id : Nat) (new_name : String) :
    Except String DB :=
  match db.findAccount account_id user_id with
  | none => .error ("Account " ++ toString account_id ++ " not found")
  | some _ =>
    let upd := fun (a : Account) => { a with name := new_name }
    .ok { db with accounts :=
            modifyP (fun a => a.id == account_id && a.user_id == user_id) upd db.accounts }

/-- `set_default_account` (ledger.py:294): clears every default flag of
the user, sets the new one and the user's default reference. -/
def set_default_account (db : DB) (user_id : Nat) (account_id : Nat) :
    Except String DB :=
  match db.findUser user_id with
  | none => .error ("User " ++ toString user_id ++ " not found")
  | some _ =>
    match db.findAccount account_id user_id with
    | none => .error ("Account " ++ toString account_id ++ " not found")
    | some _ =>
      let db := { db with accounts := db.accounts.map (fun (a : Account) =>
        if a.user_id == user_id && a.is_default then { a with is_default := false } else a) }
      let setDef := fun (a : Account) => { a with is_default := true }
      let accs := modifyP (fun a => a.id == account_id && a.user_id == user_id) setDef db.accounts
      let db := { db with accounts := accs }
      .ok (db.updateUser user_id (fun u => { u with default_account_id := some account_id }))

/-- `update_transaction` (ledger.py:372): an amount change adjusts the
balance by the delta for INCOME and EXPENSE only; TRANSFER amounts are
rewritten with no balance adjustment. -/
def update_transaction (db : DB) (user_id : Nat) (transaction_id : Nat)
    (new_amount : Option Int) (new_category : Option String)
    (new_description : Option String) : Except String DB :=
  match db.transactions.find? (fun t => t.id == transaction_id && t.user_id == user_id) with
  | none => .error ("Transaction " ++ toString transaction_id ++ " not found")
  | some transaction =>
    let db :=
      match new_amount with
      | some na =>
        if na != transaction.amount then
          let diff := na - transaction.amount
          match transaction.type with
          | .INCOME =>
            match transaction.account_id with
            | some aid => db.updateAccount aid (fun a => { a with balance := a.balance + diff })
            | none => db
          | .EXPENSE =>
            match transaction.account_id with
            | some aid => db.updateAccount aid (fun a => { a with balance := a.balance - diff })
            | none => db
          | .TRANSFER => db
        else db
      | none => db
    let t1 :=
      match new_amount with
      | some na => if na != transaction.amount then { transaction with amount := na } else transaction
      | none => transaction
    let t2 :=
      match new_category with
      | some c => { t1 with category := some c }
      | none => t1
    let t3 :=
      match new_description with
      | some d => { t2 with description := some d }
      | none => t2
    .ok { db with transactions :=
            modifyP (fun t => t.id == transaction_id && t.user_id == user_id) (fun _ => t3) db.transactions }

/-- `delete_transaction_by_id` (ledger.py:423): reverses the original
balance effect (the TRANSFER destination leg by the original debit
amount) and removes the row. -/
def delete_transaction_by_id (db : DB) (user_id : Nat) (transaction_id : Nat) :
    Except String DB :=
  match db.transactions.find? (fun t => t.id == transaction_id && t.user_id == user_id) with
  | none => .error ("Transaction " ++ toString transaction_id ++ " not found")
  | some transaction =>
    let db :=
      match transaction.type with
      | .INCOME =>
        match transaction.account_id with
        | some aid => db.updateAccount aid (fun a => { a with balance := a.balance - transaction.amount })
        | none => db
      | .EXPENSE =>
        match transaction.account_id with
        | some aid => db.updateAccount aid (fun a => { a with balance := a.balance + transaction.amount })
        | none => db
      | .TRANSFER =>
        let db :=
          match transaction.from_account_id with
          | some fid => db.updateAccount fid (fun a => { a with balance := a.balance + transaction.amount })
          | none => db
        match transaction.to_account_id with
        | some tid => db.updateAccount tid (fun a => { a with balance := a.balance - transaction.amount })
        | none => db
    .ok { db with transactions :=
            db.transactions.eraseP (fun t => t.id == transaction_id && t.user_id == user_id) }

/-- `clear_user_data` (ledger.py:467): drops all transactions and
accounts of the user and clears the default reference; returns the
deleted counts. -/
def clear_user_data (db : DB) (user_id : Nat) : DB × Nat × Nat :=
  let tx_count := (db.transactions.filter (fun t => t.user_id == user_id)).length
  let acc_count := (db.accounts.filter (fun a => a.user_id == user_id)).length
  let db := { db with
    transactions := db.transactions.filter (fun t => !(t.user_id == user_id)),
    accounts := db.accounts.filter (fun a => !(a.user_id == user_id)) }
  let db := db.updateUser user_id (fun u => { u with default_account_id := none })
  (db, tx_count, acc_count)

/-- `create_transaction_raw` (ledger.py:493): inserts a row with no
balance side effect; unknown type strings default to EXPENSE. -/
def create_transaction_raw (db : DB) (user_id : Nat) (transaction_type : String)
    (amount : Int) (currency : String) (account_id : Nat)
    (category subcategory description : Option String)
    (operation_date : Option Int) (from_account_id to_account_id : Option Nat)
    (now : Int) : DB × Transaction :=
  let opDate := operation_date.getD now
  let tx_type :=
    if strLower transaction_type == "income" then TransactionType.INCOME
    else if strLower transaction_type == "transfer" then TransactionType.TRANSFER
    else TransactionType.EXPENSE
  let tx : Transaction :=
    { id := db.nextTxId, user_id := user_id, type := tx_type, amount := amount,
      currency := currency, account_id := some account_id,
      from_account_id := from_account_id, to_account_id := to_account_id,
      category := category, subcategory := subcategory, description := description,
      operation_date := opDate }
  ({ db with transactions := db.transactions ++ [tx], nextTxId := db.nextTxId + 1 }, tx)

/-! ## Handlers (src/bot/handlers.py)

`execute_single_operation` (handlers.py:1789) is the per-intent dispatcher
used for batch sub-operations; `confirm_single_intent` is the inlined
single-operation branch of `handle_confirm` (handlers.py:2127-2292), which
differs from it in the income and transfer currency handling and in its
treatment of unknown intents.  An `Except.error` models a raised exception
caught by the surrounding handler; every engine call is atomic, so an
error leaves the committed state untouched. -/

/-- The income/expense account resolution: an explicit (truthy) name goes
through `find_account_by_name`, otherwise the user's default account
reference is dereferenced (by id only, as the source query does). -/
def resolveOpAccount (db : DB) (user_id : Nat) (account_name : Option String) :
    Option Account :=
  match truthyStr account_name with
  | some n => find_account_by_name db user_id n false
  | none =>
    match (db.findUser user_id).bind (fun u => u.default_account_id) with
    | some accId => db.findAccountById accId
    | none => none

/-- The currency-mismatch guard shared by the expense branches and the
batch income branch: a truthy caller currency must match the account's
currency case-insensitively. -/
def currencyMismatch (user_mentioned_currency : Option String) (account : Account) : Bool :=
  match truthyStr user_mentioned_currency with
  | some c => strUpper c != strUpper account.currency
  | none => false

def currencyMismatchMsg (c : String) (account : Account) : String :=
  "Указана валюта " ++ strUpper c ++ ", но счёт «" ++ account.name ++ "» в " ++
    account.currency ++ ".\nУточни счёт или измени валюту."

/-- `execute_single_operation` (handlers.py:1789). -/
def execute_single_operation (db : DB) (user_id : Nat) (intent : String)
    (data : OpData) (now : Int) : Except String DB :=
  if intent == "income" then
    match data.amount with
    | none => .error "KeyError: amount"
    | some amount =>
      match resolveOpAccount db user_id data.account_name with
      | none => .error "Счёт не найден"
      | some account =>
        if currencyMismatch data.currency account then
          .error (currencyMismatchMsg (pyOrStr data.currency "") account)
        else
          let currency := account.currency
          (add_income db user_id amount currency account.id data.category
            data.subcategory data.description data.operation_date now).map (fun r => r.1)
  else if intent == "expense" then
    match data.amount with
    | none => .error "KeyError: amount"
    | some amount =>
      match resolveOpAccount db user_id data.account_name with
      | none => .error "Счёт не найден"
      | some account =>
        if currencyMismatch data.currency account then
          .error (currencyMismatchMsg (pyOrStr data.currency "") account)
        else
          let currency := account.currency
          (add_expense db user_id amount currency account.id data.category
            data.subcategory data.description data.operation_date now).map (fun r => r.1)
  else if intent == "transfer" then
    match data.amount, data.from_account_name, data.to_account_name with
    | some amount, some fromName, some toName =>
      let currency := pyOrStr data.currency "RUB"
      match find_account_by_name db user_id fromName false,
            find_account_by_name db user_id toName false with
      | some from_account, some to_account =>
        let currency := if currency == "" then from_account.currency else currency
        let to_amount := truthyInt data.to_amount
        let to_currency := match to_amount with
          | some _ => data.to_currency
          | none => none
        (transfer db user_id amount currency from_account.id to_account.id
          to_amount to_currency data.description data.operation_date now).map (fun r => r.1)
      | _, _ => .error "Один из счетов не найден"
    | _, _, _ => .error "KeyError: transfer fields"
  else if intent == "account_add" then
    match data.account_new with
    | none => .error "KeyError: account_new"
    | some acc_new =>
      .ok (create_account db user_id acc_new.name (acc_new.currency.getD "RUB")
        (acc_new.initial_balance.getD 0)).1
  else if intent == "account_delete" then
    match data.account_name with
    | none => .error "KeyError: account_name"
    | some name =>
      match find_account_by_name db user_id name false with
      | none => .error "Счёт не найден"
      | some account => delete_account db user_id account.id
  else if intent == "account_rename" then
    match data.account_old_name, data.account_new_name with
    | some oldName, some newName =>
      match find_account_by_name db user_id oldName false with
      | none => .error "Счёт не найден"
      | some account => rename_account db user_id account.id newName
    | _, _ => .error "KeyError: rename fields"
  else if intent == "set_default_account" then
    match data.account_name with
    | none => .error "KeyError: account_name"
    | some name =>
      match find_account_by_name db user_id name false with
      | none => .error "Счёт не найден"
      | some account => set_default_account db user_id account.id
  else if intent == "clear_all_data" then
    .ok (clear_user_data db user_id).1
  else if intent == "edit_transaction" then
    match data.transaction_id with
    | none => .error "KeyError: transaction_id"
    | some tx_id =>
      update_transaction db user_id tx_id (truthyInt data.new_amount)
        data.new_category data.new_description
  else if intent == "delete_transaction" then
    match data.transaction_id with
    | none => .error "KeyError: transaction_id"
    | some tx_id => delete_transaction_by_id db user_id tx_id
  else
    .error ("Неизвестный intent: " ++ intent)

/-- The single-operation branch of `handle_confirm`
(handlers.py:2127-2292).  Unlike `execute_single_operation`: the income
branch performs no currency validation and passes the caller's currency
(defaulted to "RUB") straight through; the transfer branch always uses
the source account's currency; an intent matching no branch falls
through and succeeds without doing anything. -/
def confirm_single_intent (db : DB) (user_id : Nat) (intent : String)
    (data : OpData) (now : Int) : Except String DB :=
  if intent == "income" then
    match data.amount with
    | none => .error "KeyError: amount"
    | some amount =>
      let currency := pyOrStr data.currency "RUB"
      match resolveOpAccount db user_id data.account_name with
      | none => .error "Счёт не найден"
      | some account =>
        let currency := if currency == "" then account.currency else currency
        (add_income db user_id amount currency account.id data.category
          data.subcategory data.description data.operation_date now).map (fun r => r.1)
  else if intent == "expense" then
    match data.amount with
    | none => .error "KeyError: amount"
    | some amount =>
      match resolveOpAccount db user_id data.account_name with
      | none => .error "Счёт не найден"
      | some account =>
        if currencyMismatch data.currency account then
          .error (currencyMismatchMsg (pyOrStr data.currency "") account)
        else
          let currency := account.currency
          (add_expense db user_id amount currency account.id data.category
            data.subcategory data.description data.operation_date now).map (fun r => r.1)
  else if intent == "transfer" then
    match data.amount, data.from_account_name, data.to_account_name with
    | some amount, some fromName, some toName =>
      match find_account_by_name db user_id fromName false,
            find_account_by_name db user_id toName false with
      | some from_account, some to_account =>
        let currency := from_account.currency
        let to_amount := truthyInt data.to_amount
        let to_currency := match to_amount with
          | some _ => data.to_currency
          | none => none
        (transfer db user_id amount currency from_account.id to_account.id
          to_amount to_currency data.description data.operation_date now).map (fun r => r.1)
      | _, _ => .error "Один из счетов не найден"
    | _, _, _ => .error "KeyError: transfer fields"
  else if intent == "account_add" then
    match data.account_new with
    | none => .error "KeyError: account_new"
    | some acc_new =>
      .ok (create_account db user_id acc_new.name (acc_new.currency.getD "RUB")
        (acc_new.initial_balance.getD 0)).1
  else if intent == "account_delete" then
    match data.account_name with
    | none => .error "KeyError: account_name"
    | some name =>
      match find_account_by_name db user_id name false with
      | none => .error "Счёт не найден"
      | some account => delete_account db user_id account.id
  else if intent == "account_rename" then
    match data.account_old_name, data.account_new_name with
    | some oldName, some newName =>
      match find_account_by_name db user_id oldName false with
      | none => .error "Счёт не найден"
      | some account => rename_account db user_id account.id newName
    | _, _ => .error "KeyError: rename fields"
  else if intent == "set_default_account" then
    match data.account_name with
    | none => .error "KeyError: account_name"
    | some name =>
      match find_account_by_name db user_id name false with
      | none => .error "Счёт не найден"
      | some account => set_default_account db user_id account.id
  else if intent == "clear_all_data" then
    .ok (clear_user_data db user_id).1
  else if intent == "edit_transaction" then
    match data.transaction_id with
    | none => .error "KeyError: transaction_id"
    | some tx_id =>
      update_transaction db user_id tx_id (truthyInt data.new_amount)
        data.new_category data.new_description
  else if intent == "delete_transaction" then
    match data.transaction_id with
    | none => .error "KeyError: transaction_id"
    | some tx_id => delete_transaction_by_id db user_id tx_id
  else
    .ok db

/-! ## Confirmation state machine (handle_confirm / handle_cancel) -/

/-- The message sent back by `handle_confirm` (handlers.py:1969). -/
inductive ConfirmResult
  | notFound
  | forbidden
  | expiredMsg
  | alreadyProcessed
  | importDone (accDeleted txDeleted accountsCreated transactionsCreated : Nat)
  | batchPartial (succeeded total : Nat) (errors : List String)
  | batchDone (succeeded : Nat)
  | confirmedOk
  | applyError (msg : String)
deriving DecidableEq, Repr

/-- The message sent back by `handle_cancel` (handlers.py:2308). -/
inductive CancelResult
  | notFound
  | forbidden
  | cancelledOk
deriving DecidableEq, Repr

/-- Set the status of the pending-action row with the given id. -/
def DB.setPendingStatus (db : DB) (pending_id : Nat) (st : PendingStatus) : DB :=
  { db with pendings :=
      modifyP (fun p => p.id == pending_id) (fun p => { p with status := st }) db.pendings }

/-- The ownership check of both handlers: the pending action's user row
must exist and carry the requester's Telegram id. -/
def ownerCheck (db : DB) (p : PendingAction) (from_user_id : Nat) : Bool :=
  match db.findUser p.user_id with
  | none => false
  | some u => u.tg_user_id == from_user_id

/-- The batch loop of `handle_confirm` (handlers.py:2106-2111): apply
each sub-operation in array order, counting successes and collecting
per-index error messages; a failed sub-operation leaves the committed
state untouched. -/
def batchStep (user_id : Nat) (now : Int) (st : Nat × Nat × List String × DB)
    (op : String × OpData) : Nat × Nat × List String × DB :=
  match st with
  | (i, k, errs, db) =>
    match execute_single_operation db user_id op.1 op.2 now with
    | .ok db' => (i + 1, k + 1, errs, db')
    | .error e => (i + 1, k, errs ++ ["Операция " ++ toString i ++ ": " ++ e], db)

def applyBatch (db : DB) (user_id : Nat) (ops : List (String × OpData)) (now : Int) :
    Nat × List String × DB :=
  match ops.foldl (batchStep user_id now) (1, 0, [], db) with
  | (_, k, errs, db) => (k, errs, db)

/-- The spreadsheet-import branch of `handle_confirm`
(handlers.py:2004-2096): clear all user data, recreate accounts with
imported balances (building a lowercased name map, later duplicates
shadowing earlier ones), pick the default account (imported flag, else
first created), then insert every dated transaction with no balance side
effect, resolving accounts through the map with the first account as
fallback and silently skipping undated rows. -/
def applySheetsImport (db : DB) (user_id : Nat) (idata : ImportedData) (now : Int) :
    DB × Nat × Nat × Nat × Nat :=
  match clear_user_data db user_id with
  | (db, tx_deleted, acc_deleted) =>
    let accStep := fun (st : DB × List (String × Nat) × Nat × Option Nat × Option Nat)
        (acc : ImportedAccount) =>
      match st with
      | (db, account_map, created, firstId, defId) =>
        match create_account db user_id acc.name acc.currency acc.initial_balance with
        | (db, account) =>
          let account_map := (strLower acc.name, account.id) :: account_map
          let firstId := match firstId with
            | none => some account.id
            | some v => some v
          let defId := if acc.is_default then some account.id else defId
          (db, account_map, created + 1, firstId, defId)
    match idata.accounts.foldl accStep (db, [], 0, none, none) with
    | (db, account_map, accounts_created, first_account_id, default_account_id) =>
      let db := match default_account_id with
        | some d => db.updateUser user_id (fun u => { u with default_account_id := some d })
        | none =>
          match first_account_id with
          | some f => db.updateUser user_id (fun u => { u with default_account_id := some f })
          | none => db
      let txStep := fun (st : DB × Nat) (txd : ImportedTx) =>
        match st with
        | (db, created) =>
          let account_id :=
            match truthyStr txd.account_name with
            | some n => (account_map.find? (fun e => e.1 == strLower n)).map (fun e => e.2)
            | none => none
          let account_id := match account_id with
            | none => first_account_id
            | some v => some v
          match account_id, txd.operation_date with
          | some aid, some od =>
            match create_transaction_raw db user_id txd.transaction_type txd.amount
                txd.currency aid txd.category none txd.description (some od) none none now with
            | (db, _) => (db, created + 1)
          | _, _ => (db, created)
      match idata.transactions.foldl txStep (db, 0) with
      | (db, transactions_created) =>
        (db, acc_deleted, tx_deleted, accounts_created, transactions_created)

/-- The apply phase of `handle_confirm` (the `try` block,
handlers.py:1996-2305), entered once all four guards have passed. -/
def applyPending (db : DB) (pending : PendingAction) (now : Int) : ConfirmResult × DB :=
  if pending.payload.intent == "sheets_import" ||
     pending.action_type == ActionType.SHEETS_IMPORT then
    match applySheetsImport db pending.user_id pending.payload.imported_data now with
    | (db, accDel, txDel, accCr, txCr) =>
      (.importDone accDel txDel accCr txCr, db.setPendingStatus pending.id .CONFIRMED)
  else if pending.payload.intent == "batch" ||
          pending.action_type == ActionType.BATCH then
    match applyBatch db pending.user_id pending.payload.operations now with
    | (k, errs, db) =>
      if errs.isEmpty then
        (.batchDone k, db.setPendingStatus pending.id .CONFIRMED)
      else
        (.batchPartial k pending.payload.operations.length errs, db)
  else
    match pending.payload.data with
    | none => (.applyError "KeyError: data", db)
    | some data =>
      match confirm_single_intent db pending.user_id pending.payload.intent data now with
      | .ok db' => (.confirmedOk, db'.setPendingStatus pending.id .CONFIRMED)
      | .error e => (.applyError e, db)

/-- `handle_confirm` (handlers.py:1969): existence, ownership, expiry and
status guards in that order, then the apply phase. -/
def handle_confirm (db : DB) (pending_id : Nat) (from_user_id : Nat) (now : Int) :
    ConfirmResult × DB :=
  match db.pendings.find? (fun p => p.id == pending_id) with
  | none => (.notFound, db)
  | some pending =>
    if !ownerCheck db pending from_user_id then
      (.forbidden, db)
    else if now > pending.expires_at then
      (.expiredMsg, db.setPendingStatus pending_id .EXPIRED)
    else if pending.status != .PENDING then
      (.alreadyProcessed, db)
    else
      applyPending db pending now

/-- `handle_cancel` (handlers.py:2308): existence and ownership guards,
then the status is set to cancelled unconditionally. -/
def handle_cancel (db : DB) (pending_id : Nat) (from_user_id : Nat) :
    CancelResult × DB :=
  match db.pendings.find? (fun p => p.id == pending_id) with
  | none => (.notFound, db)
  | some pending =>
    if !ownerCheck db pending from_user_id then
      (.forbidden, db)
    else
      (.cancelledOk, db.setPendingStatus pending_id .CANCELLED)

/-! ## Lemma kit: `find?`, `modifyP` and `eraseP` over row lists -/

theorem find?_split {α : Type} {p : α → Bool} {l : List α} {a : α}
    (h : l.find? p = some a) :
    ∃ l₁ l₂, l = l₁ ++ a :: l₂ ∧ ∀ x ∈ l₁, p x = false := by
  induction l with
  | nil => simp [List.find?] at h
  | cons x xs ih =>
    by_cases hx : p x
    · rw [List.find?_cons_of_pos _ hx, Option.some_inj] at h
      exact ⟨[], xs, by simp [h], by simp⟩
    · rw [List.find?_cons_of_neg _ (by simpa using hx)] at h
      obtain ⟨l₁, l₂, hl, hfail⟩ := ih h
      refine ⟨x :: l₁, l₂, by simp [hl], ?_⟩
      intro y hy
      rcases List.mem_cons.mp hy with rfl | hy
      · simpa using hx
      · exact hfail y hy

theorem modifyP_split {α : Type} {p : α → Bool} (f : α → α) {l₁ : List α}
    (l₂ : List α) {a : α} (h₁ : ∀ x ∈ l₁, p x = false) (ha : p a = true) :
    modifyP p f (l₁ ++ a :: l₂) = l₁ ++ f a :: l₂ := by
  induction l₁ with
  | nil => simp [modifyP, ha]
  | cons x xs ih =>
    have hx : p x = false := h₁ x (List.mem_cons_self x xs)
    simp only [List.cons_append, modifyP, hx]
    simp only [Bool.false_eq_true, if_false, List.cons.injEq, true_and]
    exact ih (fun y hy => h₁ y (List.mem_cons_of_mem x hy))

theorem find?_modifyP_hit {α : Type} {p : α → Bool} {f : α → α} {l : List α} {a : α}
    (h : l.find? p = some a) (hf : ∀ x, p (f x) = p x) :
    (modifyP p f l).find? p = some (f a) := by
  induction l with
  | nil => simp [List.find?] at h
  | cons x xs ih =>
    by_cases hx : p x
    · rw [List.find?_cons_of_pos _ hx, Option.some_inj] at h
      subst h
      simp only [modifyP, hx, if_true]
      exact List.find?_cons_of_pos _ (by rw [hf]; exact hx)
    · have hx' : p x = false := by simpa using hx
      rw [List.find?_cons_of_neg _ (by simpa using hx)] at h
      simp only [modifyP, hx', Bool.false_eq_true, if_false]
      rw [List.find?_cons_of_neg _ (by simpa using hx)]
      exact ih h

theorem find?_modifyP_miss {α : Type} {p q : α → Bool} {f : α → α} (l : List α)
    (hpq : ∀ x, p x = true → q x = false) (hf : ∀ x, q (f x) = q x) :
    (modifyP p f l).find? q = l.find? q := by
  induction l with
  | nil => rfl
  | cons x xs ih =>
    by_cases hx : p x
    · have hqx : q x = false := hpq x hx
      simp only [modifyP, hx, if_true]
      rw [List.find?_cons_of_neg _ (by simp [hf, hqx]),
          List.find?_cons_of_neg _ (by simp [hqx])]
    · have hx' : p x = false := by simpa using hx
      simp only [modifyP, hx', Bool.false_eq_true, if_false]
      by_cases hq : q x
      · rw [List.find?_cons_of_pos _ hq, List.find?_cons_of_pos _ hq]
      · rw [List.find?_cons_of_neg _ (by simpa using hq),
            List.find?_cons_of_neg _ (by simpa using hq)]
        exact ih

theorem find?_and {α : Type} {p q : α → Bool} {l : List α} {a : α}
    (h : l.find? p = some a) (hq : q a = true) :
    l.find? (fun x => p x && q x) = some a := by
  induction l with
  | nil => simp [List.find?] at h
  | cons x xs ih =>
    by_cases hx : p x
    · rw [List.find?_cons_of_pos _ hx, Option.some_inj] at h
      subst h
      exact List.find?_cons_of_pos _ (by simp [hx, hq])
    · rw [List.find?_cons_of_neg _ (by simpa using hx)] at h
      rw [List.find?_cons_of_neg _ (by simp [hx])]
      exact ih h

theorem find?_append_of_none {α : Type} {p : α → Bool} {l₁ l₂ : List α}
    (h : l₁.find? p = none) : (l₁ ++ l₂).find? p = l₂.find? p := by
  induction l₁ with
  | nil => rfl
  | cons x xs ih =>
    by_cases hx : p x
    · rw [List.find?_cons_of_pos _ hx] at h
      exact absurd h (by simp)
    · rw [List.find?_cons_of_neg _ (by simpa using hx)] at h
      rw [List.cons_append, List.find?_cons_of_neg _ (by simpa using hx)]
      exact ih h

theorem eraseP_split {α : Type} {p : α → Bool} {l₁ : List α} (l₂ : List α) {a : α}
    (h₁ : ∀ x ∈ l₁, p x = false) (ha : p a = true) :
    (l₁ ++ a :: l₂).eraseP p = l₁ ++ l₂ := by
  induction l₁ with
  | nil => simp [List.eraseP, ha]
  | cons x xs ih =>
    have hx : p x = false := h₁ x (List.mem_cons_self x xs)
    simp only [List.cons_append, List.eraseP, hx, cond_false, List.cons.injEq, true_and]
    exact ih (fun y hy => h₁ y (List.mem_cons_of_mem x hy))

/-! ## Frame lemmas: the mutation engine never touches pending actions -/

theorem except_map_ok {ε α β : Type} {g : α → β} {e : Except ε α} {b : β}
    (h : e.map g = .ok b) : ∃ a, e = .ok a ∧ g a = b := by
  cases e with
  | error x => simp [Except.map] at h
  | ok a =>
    simp only [Except.map, Except.ok.injEq] at h
    exact ⟨a, rfl, h⟩

theorem add_income_pendings {db : DB} {uid : Nat} {amount : Int} {currency : String}
    {aid : Nat} {cat sub dsc : Option String} {od : Option Int} {now : Int}
    {pr : DB × Transaction}
    (h : add_income db uid amount currency aid cat sub dsc od now = .ok pr) :
    pr.1.pendings = db.pendings := by
  unfold add_income at h
  split at h
  · exact absurd h (by simp)
  · simp only [Except.ok.injEq] at h
    subst h
    rfl

theorem add_expense_pendings {db : DB} {uid : Nat} {amount : Int} {currency : String}
    {aid : Nat} {cat sub dsc : Option String} {od : Option Int} {now : Int}
    {pr : DB × Transaction}
    (h : add_expense db uid amount currency aid cat sub dsc od now = .ok pr) :
    pr.1.pendings = db.pendings := by
  unfold add_expense at h
  split at h
  · exact absurd h (by simp)
  · split at h
    · exact absurd h (by simp)
    · simp only [Except.ok.injEq] at h
      subst h
      rfl

theorem transfer_pendings {db : DB} {uid : Nat} {amount : Int} {currency : String}
    {fid tid : Nat} {toAmt : Option Int} {toCur dsc : Option String}
    {od : Option Int} {now : Int} {pr : DB × Transaction}
    (h : transfer db uid amount currency fid tid toAmt toCur dsc od now = .ok pr) :
    pr.1.pendings = db.pendings := by
  unfold transfer at h
  split at h
  · exact absurd h (by simp)
  · split at h
    · exact absurd h (by simp)
    · split at h
      · exact absurd h (by simp)
      · simp only [Except.ok.injEq] at h
        subst h
        rfl

theorem create_account_pendings (db : DB) (uid : Nat) (name currency : String)
    (bal : Int) : (create_account db uid name currency bal).1.pendings = db.pendings := by
  unfold create_account
  dsimp only
  split <;> rfl

theorem delete_account_pendings {db : DB} {uid aid : Nat} {db' : DB}
    (h : delete_account db uid aid = .ok db') : db'.pendings = db.pendings := by
  unfold delete_account at h
  split at h
  · exact absurd h (by simp)
  · split at h
    · exact absurd h (by simp)
    · simp only [Except.ok.injEq] at h
      subst h
      rfl

theorem rename_account_pendings {db : DB} {uid aid : Nat} {nm : String} {db' : DB}
    (h : rename_account db uid aid nm = .ok db') : db'.pendings = db.pendings := by
  unfold rename_account at h
  split at h
  · exact absurd h (by simp)
  · simp only [Except.ok.injEq] at h
    subst h
    rfl

theorem set_default_account_pendings {db : DB} {uid aid : Nat} {db' : DB}
    (h : set_default_account db uid aid = .ok db') : db'.pendings = db.pendings := by
  unfold set_default_account at h
  split at h
  · exact absurd h (by simp)
  · split at h
    · exact absurd h (by simp)
    · simp only [Except.ok.injEq] at h
      subst h
      rfl

theorem update_transaction_pendings {db : DB} {uid txid : Nat} {na : Option Int}
    {nc nd : Option String} {db' : DB}
    (h : update_transaction db uid txid na nc nd = .ok db') :
    db'.pendings = db.pendings := by
  unfold update_transaction at h
  split at h
  · exact absurd h (by simp)
  · simp only [Except.ok.injEq] at h
    subst h
    dsimp only
    split <;> first
      | rfl
      | (split <;> first
          | rfl
          | (split <;> try rfl) <;> (split <;> rfl))

theorem delete_transaction_pendings {db : DB} {uid txid : Nat} {db' : DB}
    (h : delete_transaction_by_id db uid txid = .ok db') :
    db'.pendings = db.pendings := by
  unfold delete_transaction_by_id at h
  split at h
  · exact absurd h (by simp)
  · simp only [Except.ok.injEq] at h
    subst h
    dsimp only
    split <;> first
      | (split <;> rfl)
      | ((split <;> try rfl) <;> (split <;> rfl))

theorem clear_user_data_pendings (db : DB) (uid : Nat) :
    (clear_user_data db uid).1.pendings = db.pendings := rfl

/-- `execute_single_operation` never touches the pending-action rows. -/
theorem exec_single_op_pendings {db : DB} {uid : Nat} {intent : String}
    {data : OpData} {now : Int} {db' : DB}
    (h : execute_single_operation db uid intent data now = .ok db') :
    db'.pendings = db.pendings := by
  unfold execute_single_operation at h
  split at h
  · -- income
    split at h
    · exact absurd h (by simp)
    · split at h
      · exact absurd h (by simp)
      · split at h
        · exact absurd h (by simp)
        · obtain ⟨pr, hpr, hb⟩ := except_map_ok h
          subst hb
          exact add_income_pendings hpr
  · split at h
    · -- expense
      split at h
      · exact absurd h (by simp)
      · split at h
        · exact absurd h (by simp)
        · split at h
          · exact absurd h (by simp)
          · obtain ⟨pr, hpr, hb⟩ := except_map_ok h
            subst hb
            exact add_expense_pendings hpr
    · split at h
      · -- transfer
        split at h
        · split at h
          · obtain ⟨pr, hpr, hb⟩ := except_map_ok h
            subst hb
            exact transfer_pendings hpr
          · exact absurd h (by simp)
        · exact absurd h (by simp)
      · split at h
        · -- account_add
          split at h
          · exact absurd h (by simp)
          · simp only [Except.ok.injEq] at h
            subst h
            exact create_account_pendings db uid _ _ _
        · split at h
          · -- account_delete
            split at h
            · exact absurd h (by simp)
            · split at h
              · exact absurd h (by simp)
              · exact delete_account_pendings h
          · split at h
            · -- account_rename
              split at h
              · split at h
                · exact absurd h (by simp)
                · exact rename_account_pendings h
              · exact absurd h (by simp)
            · split at h
              · -- set_default_account
                split at h
                · exact absurd h (by simp)
                · split at h
                  · exact absurd h (by simp)
                  · exact set_default_account_pendings h
              · split at h
                · -- clear_all_data
                  simp only [Except.ok.injEq] at h
                  subst h
                  exact clear_user_data_pendings db uid
                · split at h
                  · -- edit_transaction
                    split at h
                    · exact absurd h (by simp)
                    · exact update_transaction_pendings h
                  · split at h
                    · -- delete_transaction
                      split at h
                      · exact absurd h (by simp)
                      · exact delete_transaction_pendings h
                    · exact absurd h (by simp)

/-! ## Concrete example states -/

def exUser : User := { id := 1, tg_user_id := 10, default_account_id := some 1 }

def exCash : Account :=
  { id := 1, user_id := 1, name := "Cash", currency := "RUB", balance := 1000,
    is_default := true }

def noImport : ImportedData := { accounts := [], transactions := [] }

def opExpense300 : OpData :=
  { OpData.empty with amount := some 300, account_name := some "Cash" }

def opExpense5000 : OpData :=
  { OpData.empty with amount := some 5000, account_name := some "Cash" }

/-- A staged batch of two expenses (300 and 5000) against the 1000-balance
Cash account. -/
def c3pending : PendingAction :=
  { id := 1, user_id := 1, action_type := .BATCH,
    payload := { intent := "batch", data := none,
                 operations := [("expense", opExpense300), ("expense", opExpense5000)],
                 imported_data := noImport },
    expires_at := 100, status := .PENDING }

def c3db : DB :=
  { users := [exUser], accounts := [exCash], transactions := [],
    pendings := [c3pending], nextTxId := 1, nextAccountId := 2 }

/-- A staged income of 100 with caller currency "USD" against the RUB
Cash account. -/
def c4data : OpData :=
  { OpData.empty with
    amount := some 100
    currency := some "USD"
    account_name := some "Cash" }

def c4pending : PendingAction :=
  { id := 2, user_id := 1, action_type := .INCOME,
    payload := { intent := "income", data := some c4data, operations := [],
                 imported_data := noImport },
    expires_at := 100, status := .PENDING }

def c4db : DB :=
  { users := [exUser], accounts := [exCash], transactions := [],
    pendings := [c4pending], nextTxId := 1, nextAccountId := 2 }

/-- An already-confirmed pending action. -/
def c2pending : PendingAction :=
  { id := 3, user_id := 1, action_type := .BATCH,
    payload := { intent := "batch", data := none,
                 operations := [("expense", opExpense300)], imported_data := noImport },
    expires_at := 100, status := .CONFIRMED }

def c2db : DB :=
  { users := [exUser], accounts := [exCash], transactions := [],
    pendings := [c2pending], nextTxId := 1, nextAccountId := 2 }

/-- A pending income whose expiry instant lies strictly in the past. -/
def c5pending : PendingAction :=
  { id := 4, user_id := 1, action_type := .INCOME,
    payload := { intent := "income", data := some c4data, operations := [],
                 imported_data := noImport },
    expires_at := -5, status := .PENDING }

def c5db : DB :=
  { users := [exUser], accounts := [exCash], transactions := [],
    pendings := [c5pending], nextTxId := 1, nextAccountId := 2 }

def c1data : OpData :=
  { OpData.empty with amount := some 100, account_name := some "Cash" }

def c1done : PendingAction :=
  { id := 8, user_id := 1, action_type := .EXPENSE,
    payload := { intent := "expense", data := some c1data, operations := [],
                 imported_data := noImport },
    expires_at := 100, status := .CONFIRMED }

def c1db : DB :=
  { users := [exUser], accounts := [exCash], transactions := [],
    pendings := [c1done], nextTxId := 1, nextAccountId := 2 }

/-! ## Claim theorems -/

/-- The error payload of an `Except`, when any. -/
def exceptErr {ε α : Type} : Except ε α → Option ε
  | .error e => some e
  | .ok _ => none

/-- C1: `handle_confirm` performs its checks in order: a missing action
reports NotFound; a requester other than the owning user reports
Forbidden; `now` strictly after `expires_at` sets the status to expired,
reports expiry and applies no mutation; a non-pending status reports
"already processed" with no mutation; otherwise the apply phase runs,
and on a successful single-operation apply the mutation is applied and
the status set to confirmed. -/
theorem C1_confirm_check_order (db : DB) (pid from_user_id : Nat) (now : Int) :
    (db.pendings.find? (fun q => q.id == pid) = none →
       handle_confirm db pid from_user_id now = (.notFound, db)) ∧
    (∀ p, db.pendings.find? (fun q => q.id == pid) = some p →
      (ownerCheck db p from_user_id = false →
         handle_confirm db pid from_user_id now = (.forbidden, db)) ∧
      (ownerCheck db p from_user_id = true →
        (now > p.expires_at →
           handle_confirm db pid from_user_id now =
             (.expiredMsg, db.setPendingStatus pid .EXPIRED) ∧
           (db.setPendingStatus pid .EXPIRED).accounts = db.accounts ∧
           (db.setPendingStatus pid .EXPIRED).transactions = db.transactions ∧
           (db.setPendingStatus pid .EXPIRED).users = db.users) ∧
        (¬ now > p.expires_at →
          (p.status ≠ .PENDING →
             handle_confirm db pid from_user_id now = (.alreadyProcessed, db)) ∧
          (p.status = .PENDING →
             handle_confirm db pid from_user_id now = applyPending db p now ∧
             (∀ data db₁,
               p.payload.intent ≠ "sheets_import" → p.action_type ≠ .SHEETS_IMPORT →
               p.payload.intent ≠ "batch" → p.action_type ≠ .BATCH →
               p.payload.data = some data →
               confirm_single_intent db p.user_id p.payload.intent data now = .ok db₁ →
               handle_confirm db pid from_user_id now =
                 (.confirmedOk, db₁.setPendingStatus p.id .CONFIRMED)))))) := by
  refine ⟨fun h => by simp [handle_confirm, h], fun p hp => ⟨fun hown => ?_, fun hown => ⟨fun hexp => ?_, fun hexp => ⟨fun hst => ?_, fun hst => ⟨?_, ?_⟩⟩⟩⟩⟩
  · simp [handle_confirm, hp, hown]
  · exact ⟨by simp [handle_confirm, hp, hown, hexp], rfl, rfl, rfl⟩
  · have hbne : (p.status != PendingStatus.PENDING) = true := by
      simp [bne_iff_ne]; exact hst
    simp [handle_confirm, hp, hown, hexp, hbne]
  · simp [handle_confirm, hp, hown, hexp, hst]
  · intro data db₁ h1 h2 h3 h4 hdata hok
    have e1 : (p.payload.intent == "sheets_import") = false := by
      simp [beq_eq_false_iff_ne]; exact h1
    have e2 : (p.action_type == ActionType.SHEETS_IMPORT) = false := by
      simp [beq_eq_false_iff_ne]; exact h2
    have e3 : (p.payload.intent == "batch") = false := by
      simp [beq_eq_false_iff_ne]; exact h3
    have e4 : (p.action_type == ActionType.BATCH) = false := by
      simp [beq_eq_false_iff_ne]; exact h4
    simp [handle_confirm, hp, hown, hexp, hst, applyPending, e1, e2, e3, e4, hdata, hok]

/-- Witness for C1 at concrete states: a missing id reports NotFound and
an already-confirmed action reports "already processed". -/
theorem C1_confirm_check_order_witness :
    handle_confirm c1db 99 10 0 = (.notFound, c1db) ∧
    handle_confirm c1db 8 10 0 = (.alreadyProcessed, c1db) :=
  ⟨(C1_confirm_check_order c1db 99 10 0).1 (by decide),
   ((((C1_confirm_check_order c1db 8 10 0).2 c1done (by decide)).2
      (by decide)).2 (by decide)).1 (by decide)⟩

/-- C5: confirming any pending action whose expiry lies strictly in the
past applies no staged mutation: accounts, transactions and users are
untouched, and the only change is that action's status becoming
expired. -/
theorem C5_expired_confirm_frame (db : DB) (pid from_user_id : Nat) (now : Int)
    (p : PendingAction) (hp : db.pendings.find? (fun q => q.id == pid) = some p)
    (hown : ownerCheck db p from_user_id = true) (hexp : now > p.expires_at) :
    handle_confirm db pid from_user_id now =
      (.expiredMsg, db.setPendingStatus pid .EXPIRED) ∧
    (handle_confirm db pid from_user_id now).2.accounts = db.accounts ∧
    (handle_confirm db pid from_user_id now).2.transactions = db.transactions ∧
    (handle_confirm db pid from_user_id now).2.users = db.users ∧
    (handle_confirm db pid from_user_id now).2.pendings =
      modifyP (fun q => q.id == pid) (fun q => { q with status := .EXPIRED })
        db.pendings := by
  have h : handle_confirm db pid from_user_id now =
      (.expiredMsg, db.setPendingStatus pid .EXPIRED) := by
    simp [handle_confirm, hp, hown, hexp]
  refine ⟨h, ?_, ?_, ?_, ?_⟩ <;> rw [h] <;> rfl

/-- Witness for C5: the staged USD income with expiry -5 confirmed at
time 0 leaves the ledger untouched and only flips the status. -/
theorem C5_expired_confirm_frame_witness :
    handle_confirm c5db 4 10 0 = (.expiredMsg, c5db.setPendingStatus 4 .EXPIRED) ∧
    (handle_confirm c5db 4 10 0).2.accounts = c5db.accounts :=
  let h := C5_expired_confirm_frame c5db 4 10 0 c5pending (by decide) (by decide) (by decide)
  ⟨h.1, h.2.1⟩

/-- C2 counterexample: the status of a resolved action is not immutable —
`handle_cancel` rewrites an already-confirmed action to cancelled. -/
theorem C2_counterexample :
    c2db.pendings.map (fun p => p.status) = [.CONFIRMED] ∧
    (handle_cancel c2db 3 10).1 = .cancelledOk ∧
    (handle_cancel c2db 3 10).2.pendings.map (fun p => p.status) = [.CANCELLED] := by
  decide

/-- C2 (amended): once a pending action's status is confirmed, cancelled
or expired, no confirm applies the staged mutation again — the ledger
stays untouched and an unexpired re-confirm reports "already processed",
so the mutation is applied at most once; the status itself is not
immutable, though: cancel unconditionally rewrites it to cancelled. -/
theorem C2_resolved_no_reapply (db : DB) (pid from_user_id : Nat) (now : Int)
    (p : PendingAction) (hp : db.pendings.find? (fun q => q.id == pid) = some p)
    (hst : p.status ≠ .PENDING) :
    ((handle_confirm db pid from_user_id now).2.accounts = db.accounts ∧
     (handle_confirm db pid from_user_id now).2.transactions = db.transactions) ∧
    (ownerCheck db p from_user_id = true → ¬ now > p.expires_at →
       handle_confirm db pid from_user_id now = (.alreadyProcessed, db)) ∧
    (ownerCheck db p from_user_id = true →
       handle_cancel db pid from_user_id =
         (.cancelledOk, db.setPendingStatus pid .CANCELLED)) := by
  have hbne : (p.status != PendingStatus.PENDING) = true := by
    simp [bne_iff_ne]; exact hst
  refine ⟨?_, fun hown hexp => by simp [handle_confirm, hp, hown, hexp, hst],
          fun hown => by simp [handle_cancel, hp, hown]⟩
  by_cases hown : ownerCheck db p from_user_id
  · by_cases hexp : now > p.expires_at
    · simp [handle_confirm, hp, hown, hexp, DB.setPendingStatus]
    · simp [handle_confirm, hp, hown, hexp, hst]
  · have hof : ownerCheck db p from_user_id = false := by simpa using hown
    simp [handle_confirm, hp, hof]

/-- Witness for C2: at the concrete confirmed action, re-confirm reports
"already processed" with the state untouched, and cancel rewrites the
status. -/
theorem C2_resolved_no_reapply_witness :
    handle_confirm c2db 3 10 0 = (.alreadyProcessed, c2db) ∧
    handle_cancel c2db 3 10 = (.cancelledOk, c2db.setPendingStatus 3 .CANCELLED) :=
  let h := C2_resolved_no_reapply c2db 3 10 0 c2pending (by decide) (by decide)
  ⟨h.2.1 (by decide) (by decide), h.2.2 (by decide)⟩

/-- C4: contrary to the claim, the single-operation income confirm path
(handlers.py:2127-2160) stores the caller-provided currency on the
transaction — here "USD" on an RUB account — performing no mismatch
validation at all, while the batch income path
(`execute_single_operation`, handlers.py:1793-1833) rejects the very
same data with a currency-mismatch error and always writes the
account's currency. -/
theorem C4_income_currency_bug :
    (handle_confirm c4db 2 10 0).1 = .confirmedOk ∧
    (handle_confirm c4db 2 10 0).2.transactions.map (fun t => (t.type, t.currency)) =
      [(.INCOME, "USD")] ∧
    c4db.accounts.map (fun a => a.currency) = ["RUB"] ∧
    exceptErr (execute_single_operation c4db 1 "income" c4data 0) =
      some (currencyMismatchMsg "USD" exCash) := by
  decide

/-! ## Batch characterization (C3) -/

/-- Sequential application of batch sub-operations in array order, a
failed sub-operation leaving the state exactly as it was. -/
def applyOpsSeq (user_id : Nat) (now : Int) (db : DB) :
    List (String × OpData) → DB
  | [] => db
  | op :: ops =>
    match execute_single_operation db user_id op.1 op.2 now with
    | .ok db' => applyOpsSeq user_id now db' ops
    | .error _ => applyOpsSeq user_id now db ops

/-- How many batch sub-operations succeed when applied sequentially. -/
def countOpsOk (user_id : Nat) (now : Int) (db : DB) :
    List (String × OpData) → Nat
  | [] => 0
  | op :: ops =>
    match execute_single_operation db user_id op.1 op.2 now with
    | .ok db' => 1 + countOpsOk user_id now db' ops
    | .error _ => countOpsOk user_id now db ops

theorem batch_foldl_state (user_id : Nat) (now : Int) :
    ∀ (ops : List (String × OpData)) (i k : Nat) (errs : List String) (db : DB),
      (ops.foldl (batchStep user_id now) (i, k, errs, db)).2.2.2 =
        applyOpsSeq user_id now db ops := by
  intro ops
  induction ops with
  | nil => intro i k errs db; rfl
  | cons op ops ih =>
    intro i k errs db
    simp only [List.foldl, batchStep]
    cases hop : execute_single_operation db user_id op.1 op.2 now with
    | ok db' => simp only [applyOpsSeq, hop, ih]
    | error e => simp only [applyOpsSeq, hop, ih]

theorem batch_foldl_count (user_id : Nat) (now : Int) :
    ∀ (ops : List (String × OpData)) (i k : Nat) (errs : List String) (db : DB),
      (ops.foldl (batchStep user_id now) (i, k, errs, db)).2.1 =
        k + countOpsOk user_id now db ops := by
  intro ops
  induction ops with
  | nil => intro i k errs db; simp [countOpsOk]
  | cons op ops ih =>
    intro i k errs db
    simp only [List.foldl, batchStep]
    cases hop : execute_single_operation db user_id op.1 op.2 now with
    | ok db' => simp only [countOpsOk, hop, ih]; omega
    | error e => simp only [countOpsOk, hop, ih]

theorem batch_foldl_acct (user_id : Nat) (now : Int) :
    ∀ (ops : List (String × OpData)) (i k : Nat) (errs : List String) (db : DB),
      (ops.foldl (batchStep user_id now) (i, k, errs, db)).2.1 +
        (ops.foldl (batchStep user_id now) (i, k, errs, db)).2.2.1.length =
          k + errs.length + ops.length := by
  intro ops
  induction ops with
  | nil => intro i k errs db; rfl
  | cons op ops ih =>
    intro i k errs db
    simp only [List.foldl, batchStep]
    cases hop : execute_single_operation db user_id op.1 op.2 now with
    | ok db' => rw [ih]; simp; omega
    | error e => rw [ih]; simp; omega

theorem batch_foldl_pendings (user_id : Nat) (now : Int) :
    ∀ (ops : List (String × OpData)) (i k : Nat) (errs : List String) (db : DB),
      (ops.foldl (batchStep user_id now) (i, k, errs, db)).2.2.2.pendings =
        db.pendings := by
  intro ops
  induction ops with
  | nil => intro i k errs db; rfl
  | cons op ops ih =>
    intro i k errs db
    simp only [List.foldl, batchStep]
    cases hop : execute_single_operation db user_id op.1 op.2 now with
    | ok db' => rw [ih]; exact exec_single_op_pendings hop
    | error e => rw [ih]

/-- The kind of partial-batch report: succeeded, total, error count. -/
def batchReport : ConfirmResult → Option (Nat × Nat × Nat)
  | .batchPartial k n errs => some (k, n, errs.length)
  | _ => none

/-- C3 counterexample: confirming the staged batch
`[expense(300), expense(5000)]` against the 1000-balance account commits
the first expense (balance 700) and reports "1 of 2 succeeded" with one
error, yet the action is left at status pending even though one
sub-operation (more than zero) succeeded — refuting the claim that the
batch would then be marked as having executed. -/
theorem C3_counterexample :
    batchReport (handle_confirm c3db 1 10 0).1 = some (1, 2, 1) ∧
    (handle_confirm c3db 1 10 0).2.accounts.map (fun a => a.balance) = [700] ∧
    (handle_confirm c3db 1 10 0).2.pendings.map (fun q => q.status) = [.PENDING] := by
  decide

/-- C3 (amended): a confirmed batch applies its sub-operations through
the mutation engine in array order; effects committed for earlier
sub-operations are never rolled back (the final ledger state is the
sequential application with failures as no-ops); the result reports
"k of n succeeded" with one error message per failed index; the action
is marked confirmed only when every sub-operation succeeded and is left
at its pending status whenever at least one failed — even if some
succeeded. -/
theorem C3_batch_apply (db : DB) (pid from_user_id : Nat) (now : Int)
    (p : PendingAction) (hp : db.pendings.find? (fun q => q.id == pid) = some p)
    (hown : ownerCheck db p from_user_id = true)
    (hexp : ¬ now > p.expires_at) (hst : p.status = .PENDING)
    (hbatch : p.payload.intent = "batch") (hna : p.action_type ≠ .SHEETS_IMPORT) :
    ∀ k errs db₁,
      applyBatch db p.user_id p.payload.operations now = (k, errs, db₁) →
      db₁ = applyOpsSeq p.user_id now db p.payload.operations ∧
      k = countOpsOk p.user_id now db p.payload.operations ∧
      k + errs.length = p.payload.operations.length ∧
      db₁.pendings = db.pendings ∧
      (errs = [] →
        handle_confirm db pid from_user_id now =
          (.batchDone k, db₁.setPendingStatus p.id .CONFIRMED)) ∧
      (errs ≠ [] →
        handle_confirm db pid from_user_id now =
          (.batchPartial k p.payload.operations.length errs, db₁)) := by
  intro k errs db₁ hab
  have e1 : (p.payload.intent == "sheets_import") = false := by simp [hbatch]
  have e2 : (p.action_type == ActionType.SHEETS_IMPORT) = false := by
    simp [beq_eq_false_iff_ne]; exact hna
  have e3 : (p.payload.intent == "batch") = true := by simp [hbatch]
  have hstate : db₁ = applyOpsSeq p.user_id now db p.payload.operations := by
    have := batch_foldl_state p.user_id now p.payload.operations 1 0 [] db
    unfold applyBatch at hab
    rcases hfold : p.payload.operations.foldl (batchStep p.user_id now) (1, 0, [], db)
      with ⟨i', k', errs', db''⟩
    rw [hfold] at hab this
    cases hab
    exact this
  have hcount : k = countOpsOk p.user_id now db p.payload.operations := by
    have := batch_foldl_count p.user_id now p.payload.operations 1 0 [] db
    unfold applyBatch at hab
    rcases hfold : p.payload.operations.foldl (batchStep p.user_id now) (1, 0, [], db)
      with ⟨i', k', errs', db''⟩
    rw [hfold] at hab this
    cases hab
    simpa using this
  have hacct : k + errs.length = p.payload.operations.length := by
    have := batch_foldl_acct p.user_id now p.payload.operations 1 0 [] db
    unfold applyBatch at hab
    rcases hfold : p.payload.operations.foldl (batchStep p.user_id now) (1, 0, [], db)
      with ⟨i', k', errs', db''⟩
    rw [hfold] at hab this
    cases hab
    simpa using this
  have hpend : db₁.pendings = db.pendings := by
    have := batch_foldl_pendings p.user_id now p.payload.operations 1 0 [] db
    unfold applyBatch at hab
    rcases hfold : p.payload.operations.foldl (batchStep p.user_id now) (1, 0, [], db)
      with ⟨i', k', errs', db''⟩
    rw [hfold] at hab this
    cases hab
    exact this
  refine ⟨hstate, hcount, hacct, hpend, ?_, ?_⟩
  · intro herrs
    simp [handle_confirm, hp, hown, hexp, hst, applyPending, e1, e2, e3, hab, herrs]
  · intro herrs
    have hne : errs.isEmpty = false := by
      cases errs with
      | nil => exact absurd rfl herrs
      | cons x xs => rfl
    simp [handle_confirm, hp, hown, hexp, hst, applyPending, e1, e2, e3, hab, hne]

/-- Witness for C3 (amended) at the concrete scenario batch: the final
state is the sequential application and the action's rows are untouched
by the failing batch. -/
theorem C3_batch_apply_witness :
    (applyBatch c3db 1 c3pending.payload.operations 0).2.2 =
      applyOpsSeq 1 0 c3db c3pending.payload.operations ∧
    (handle_confirm c3db 1 10 0).2.pendings = c3db.pendings := by
  have h := C3_batch_apply c3db 1 10 0 c3pending (by decide) (by decide) (by decide)
    (by decide) (by decide) (by decide)
    (applyBatch c3db 1 c3pending.payload.operations 0).1
    (applyBatch c3db 1 c3pending.payload.operations 0).2.1
    (applyBatch c3db 1 c3pending.payload.operations 0).2.2 rfl
  have herrs : (applyBatch c3db 1 c3pending.payload.operations 0).2.1 ≠ [] := by
    intro hnil
    have : (applyBatch c3db 1 c3pending.payload.operations 0).2.1.length = 0 := by
      rw [hnil]; rfl
    revert this
    decide
  refine ⟨h.1.symm ▸ rfl, ?_⟩
  · have heq := h.2.2.2.2.2 herrs
    rw [heq]
    exact h.2.2.2.1

/-! ## Account lookup under balance updates -/

/-- A strengthened `find?`: the first row with a given id that also
belongs to the user is the first row with that id, when that row does
belong to the user (the unique-primary-key reading of the two queries). -/
theorem findAccount_of_findAccountById {db : DB} {aid uid : Nat} {a : Account}
    (h : db.findAccountById aid = some a) (hu : a.user_id = uid) :
    db.findAccount aid uid = some a := by
  unfold DB.findAccount
  exact find?_and (show db.accounts.find? (fun x => x.id == aid) = some a from h)
    (by simp [hu])

theorem findAccountById_update_hit {db : DB} {aid : Nat} {a : Account}
    (f : Account → Account) (hid : ∀ x, (f x).id = x.id)
    (h : db.findAccountById aid = some a) :
    (db.updateAccount aid f).findAccountById aid = some (f a) := by
  unfold DB.updateAccount DB.findAccountById
  exact find?_modifyP_hit h (fun x => by simp [hid])

theorem findAccountById_update_miss {db : DB} {aid bid : Nat}
    (f : Account → Account) (hid : ∀ x, (f x).id = x.id) (hne : aid ≠ bid) :
    (db.updateAccount aid f).findAccountById bid = db.findAccountById bid := by
  unfold DB.updateAccount DB.findAccountById
  apply find?_modifyP_miss
  · intro x hx
    have hxa : x.id = aid := by simpa using hx
    simp [hxa]
    exact fun hh => hne hh
  · intro x
    simp [hid]

/-- C6: `transfer` requires `from.balance >= amount`, failing with an
insufficient-balance error and touching nothing otherwise; on success
the source account loses exactly `amount`, the destination gains
exactly `to_amount` when given else `amount`, and one TRANSFER row
holding both account references is appended — so a same-currency
transfer (no `to_amount`) preserves the sum of the two balances. -/
theorem C6_transfer_spec (db : DB) (uid : Nat) (amount : Int) (currency : String)
    (fid tid : Nat) (to_amount : Option Int) (to_currency description : Option String)
    (od : Option Int) (now : Int) (fa ta : Account)
    (hfa : db.findAccountById fid = some fa) (hfau : fa.user_id = uid)
    (hta : db.findAccountById tid = some ta) (htau : ta.user_id = uid)
    (hne : fid ≠ tid) :
    (fa.balance < amount →
       transfer db uid amount currency fid tid to_amount to_currency description od now =
         .error ("Insufficient balance: " ++ toString fa.balance ++ " < " ++
           toString amount)) ∧
    (¬ fa.balance < amount →
       ∃ db' tx,
         transfer db uid amount currency fid tid to_amount to_currency description od now =
           .ok (db', tx) ∧
         db'.balanceOf fid = some (fa.balance - amount) ∧
         db'.balanceOf tid = some (ta.balance + to_amount.getD amount) ∧
         tx.type = .TRANSFER ∧ tx.amount = amount ∧
         tx.from_account_id = some fid ∧ tx.to_account_id = some tid ∧
         db'.transactions = db.transactions ++ [tx] ∧
         (to_amount = none →
           (fa.balance - amount) + (ta.balance + to_amount.getD amount) =
             fa.balance + ta.balance)) := by
  have hffind : db.findAccount fid uid = some fa := findAccount_of_findAccountById hfa hfau
  have htfind : db.findAccount tid uid = some ta := findAccount_of_findAccountById hta htau
  constructor
  · intro hlt
    simp [transfer, hffind, htfind, hlt]
  · intro hge
    have hbal : ((db.updateAccount fid fun a => { a with balance := a.balance - amount }).updateAccount
        tid fun a => { a with balance := a.balance + to_amount.getD amount }).balanceOf fid =
          some (fa.balance - amount) := by
      unfold DB.balanceOf
      rw [findAccountById_update_miss
            (fun a => { a with balance := a.balance + to_amount.getD amount })
            (fun x => rfl) (Ne.symm hne),
          findAccountById_update_hit
            (fun a => { a with balance := a.balance - amount }) (fun x => rfl) hfa]
      rfl
    have hbal2 : ((db.updateAccount fid fun a => { a with balance := a.balance - amount }).updateAccount
        tid fun a => { a with balance := a.balance + to_amount.getD amount }).balanceOf tid =
          some (ta.balance + to_amount.getD amount) := by
      unfold DB.balanceOf
      rw [findAccountById_update_hit
            (fun a => { a with balance := a.balance + to_amount.getD amount }) (fun x => rfl)
            (by rw [findAccountById_update_miss
                      (fun a => { a with balance := a.balance - amount }) (fun x => rfl) hne]
                exact hta)]
      rfl
    rcases htr : transfer db uid amount currency fid tid to_amount to_currency description od now
      with _ | pr
    · exfalso
      revert htr
      simp [transfer, hffind, htfind, hge]
    · have hpr : pr = (({ (db.updateAccount fid fun a => { a with balance := a.balance - amount }).updateAccount
            tid fun a => { a with balance := a.balance + to_amount.getD amount } with
          transactions := ((db.updateAccount fid fun a => { a with balance := a.balance - amount }).updateAccount
            tid fun a => { a with balance := a.balance + to_amount.getD amount }).transactions ++
              [{ id := ((db.updateAccount fid fun a => { a with balance := a.balance - amount }).updateAccount
                    tid fun a => { a with balance := a.balance + to_amount.getD amount }).nextTxId,
                 user_id := uid, type := .TRANSFER, amount := amount, currency := currency,
                 account_id := none, from_account_id := some fid, to_account_id := some tid,
                 category := none, subcategory := none, description := description,
                 operation_date := od.getD now }],
          nextTxId := ((db.updateAccount fid fun a => { a with balance := a.balance - amount }).updateAccount
            tid fun a => { a with balance := a.balance + to_amount.getD amount }).nextTxId + 1 }),
        ({ id := ((db.updateAccount fid fun a => { a with balance := a.balance - amount }).updateAccount
              tid fun a => { a with balance := a.balance + to_amount.getD amount }).nextTxId,
           user_id := uid, type := .TRANSFER, amount := amount, currency := currency,
           account_id := none, from_account_id := some fid, to_account_id := some tid,
           category := none, subcategory := none, description := description,
           operation_date := od.getD now })) := by
        have := htr
        simp only [transfer, hffind, htfind, if_neg hge, Except.ok.injEq] at this
        exact this.symm
      refine ⟨pr.1, pr.2, rfl, ?_, ?_, ?_, ?_, ?_, ?_, ?_, ?_⟩
      · rw [hpr]; exact hbal
      · rw [hpr]; exact hbal2
      · rw [hpr]
      · rw [hpr]
      · rw [hpr]
      · rw [hpr]
      · rw [hpr]; rfl
      · intro hnone
        subst hnone
        simp only [Option.getD]
        omega

def exWallet : Account :=
  { id := 2, user_id := 1, name := "Wallet", currency := "USD", balance := 0,
    is_default := false }

def c6db : DB :=
  { users := [exUser], accounts := [exCash, exWallet], transactions := [],
    pendings := [], nextTxId := 1, nextAccountId := 3 }

/-- Witness for C6 at the cross-currency scenario: transferring 900 with
credited amount 10 from the 1000-balance RUB account to the 0-balance
USD account leaves balances 100 and 10. -/
theorem C6_transfer_spec_witness :
    (transfer c6db 1 900 "RUB" 1 2 (some 10) (some "USD") none none 0).map
      (fun r => (r.1.balanceOf 1, r.1.balanceOf 2)) = .ok (some 100, some 10) := by
  obtain ⟨db', tx, heq, hb1, hb2, -, -, -, -, -, -⟩ :=
    (C6_transfer_spec c6db 1 900 "RUB" 1 2 (some 10) (some "USD") none none 0 exCash exWallet
      (by decide) (by decide) (by decide) (by decide) (by decide)).2 (by decide)
  rw [heq]
  simp only [Except.map]
  rw [hb1, hb2]
  rfl

/-- Deleting an INCOME row subtracts its amount back from the account
and removes the row. -/
theorem delete_reverses_income (db : DB) (uid txid : Nat) (tx : Transaction)
    (htx : db.transactions.find? (fun t => t.id == txid && t.user_id == uid) = some tx) :
    ∀ aid a, tx.type = .INCOME → tx.account_id = some aid →
       db.findAccountById aid = some a →
       ∃ db', delete_transaction_by_id db uid txid = .ok db' ∧
         db'.balanceOf aid = some (a.balance - tx.amount) ∧
         db'.transactions =
           db.transactions.eraseP (fun t => t.id == txid && t.user_id == uid) := by
  intro aid a htype haid hacc
  rcases hdel : delete_transaction_by_id db uid txid with e | db'
  · exfalso
    simp only [delete_transaction_by_id, htx, htype, haid] at hdel
    exact absurd hdel (by simp)
  · have hdb' : db' = { db.updateAccount aid
          (fun x => { x with balance := x.balance - tx.amount }) with
        transactions := (db.updateAccount aid
          (fun x => { x with balance := x.balance - tx.amount })).transactions.eraseP
            (fun t => t.id == txid && t.user_id == uid) } := by
      have h2 := hdel
      simp only [delete_transaction_by_id, htx, htype, haid, Except.ok.injEq] at h2
      exact h2.symm
    refine ⟨db', rfl, ?_, ?_⟩
    · rw [hdb']
      show ((db.updateAccount aid fun x => { x with balance := x.balance - tx.amount }).findAccountById
          aid).map (fun x => x.balance) = some (a.balance - tx.amount)
      rw [findAccountById_update_hit
            (fun x => { x with balance := x.balance - tx.amount }) (fun x => rfl) hacc]
      rfl
    · rw [hdb']; rfl

/-- Deleting an EXPENSE row adds its amount back to the account and
removes the row. -/
theorem delete_reverses_expense (db : DB) (uid txid : Nat) (tx : Transaction)
    (htx : db.transactions.find? (fun t => t.id == txid && t.user_id == uid) = some tx) :
    ∀ aid a, tx.type = .EXPENSE → tx.account_id = some aid →
       db.findAccountById aid = some a →
       ∃ db', delete_transaction_by_id db uid txid = .ok db' ∧
         db'.balanceOf aid = some (a.balance + tx.amount) ∧
         db'.transactions =
           db.transactions.eraseP (fun t => t.id == txid && t.user_id == uid) := by
  intro aid a htype haid hacc
  rcases hdel : delete_transaction_by_id db uid txid with e | db'
  · exfalso
    simp only [delete_transaction_by_id, htx, htype, haid] at hdel
    exact absurd hdel (by simp)
  · have hdb' : db' = { db.updateAccount aid
          (fun x => { x with balance := x.balance + tx.amount }) with
        transactions := (db.updateAccount aid
          (fun x => { x with balance := x.balance + tx.amount })).transactions.eraseP
            (fun t => t.id == txid && t.user_id == uid) } := by
      have h2 := hdel
      simp only [delete_transaction_by_id, htx, htype, haid, Except.ok.injEq] at h2
      exact h2.symm
    refine ⟨db', rfl, ?_, ?_⟩
    · rw [hdb']
      show ((db.updateAccount aid fun x => { x with balance := x.balance + tx.amount }).findAccountById
          aid).map (fun x => x.balance) = some (a.balance + tx.amount)
      rw [findAccountById_update_hit
            (fun x => { x with balance := x.balance + tx.amount }) (fun x => rfl) hacc]
      rfl
    · rw [hdb']; rfl

/-- Deleting a TRANSFER row credits the source and debits the
destination by the stored debit amount and removes the row. -/
theorem delete_reverses_transfer (db : DB) (uid txid : Nat) (tx : Transaction)
    (htx : db.transactions.find? (fun t => t.id == txid && t.user_id == uid) = some tx) :
    ∀ fid tid f t, tx.type = .TRANSFER → tx.from_account_id = some fid →
       tx.to_account_id = some tid → fid ≠ tid →
       db.findAccountById fid = some f → db.findAccountById tid = some t →
       ∃ db', delete_transaction_by_id db uid txid = .ok db' ∧
         db'.balanceOf fid = some (f.balance + tx.amount) ∧
         db'.balanceOf tid = some (t.balance - tx.amount) ∧
         db'.transactions =
           db.transactions.eraseP (fun t => t.id == txid && t.user_id == uid) := by
  intro fid tid f t htype hfid htid hne hf ht
  rcases hdel : delete_transaction_by_id db uid txid with e | db'
  · exfalso
    simp only [delete_transaction_by_id, htx, htype, hfid, htid] at hdel
    exact absurd hdel (by simp)
  · have hdb' : db' = { (db.updateAccount fid
          (fun x => { x with balance := x.balance + tx.amount })).updateAccount tid
          (fun x => { x with balance := x.balance - tx.amount }) with
        transactions := ((db.updateAccount fid
          (fun x => { x with balance := x.balance + tx.amount })).updateAccount tid
          (fun x => { x with balance := x.balance - tx.amount })).transactions.eraseP
            (fun t => t.id == txid && t.user_id == uid) } := by
      have h2 := hdel
      simp only [delete_transaction_by_id, htx, htype, hfid, htid, Except.ok.injEq] at h2
      exact h2.symm
    refine ⟨db', rfl, ?_, ?_, ?_⟩
    · rw [hdb']
      show (((db.updateAccount fid fun x => { x with balance := x.balance + tx.amount }).updateAccount
          tid fun x => { x with balance := x.balance - tx.amount }).findAccountById fid).map
            (fun x => x.balance) = some (f.balance + tx.amount)
      rw [findAccountById_update_miss
            (fun x => { x with balance := x.balance - tx.amount }) (fun x => rfl) (Ne.symm hne),
          findAccountById_update_hit
            (fun x => { x with balance := x.balance + tx.amount }) (fun x => rfl) hf]
      rfl
    · rw [hdb']
      show (((db.updateAccount fid fun x => { x with balance := x.balance + tx.amount }).updateAccount
          tid fun x => { x with balance := x.balance - tx.amount }).findAccountById tid).map
            (fun x => x.balance) = some (t.balance - tx.amount)
      rw [findAccountById_update_hit
            (fun x => { x with balance := x.balance - tx.amount }) (fun x => rfl)
            (by rw [findAccountById_update_miss
                      (fun x => { x with balance := x.balance + tx.amount }) (fun x => rfl) hne]
                exact ht)]
      rfl
    · rw [hdb']; rfl

/-- C7: deleting a transaction reverses its original balance effect —
INCOME subtracts the amount back, EXPENSE adds it back, and TRANSFER
credits the source and debits the destination by the original debit
amount (the recorded credited amount of a cross-currency transfer is
not even persisted on the row); the row is then removed. -/
theorem C7_delete_reverses (db : DB) (uid txid : Nat) (tx : Transaction)
    (htx : db.transactions.find? (fun t => t.id == txid && t.user_id == uid) = some tx) :
    (∀ aid a, tx.type = .INCOME → tx.account_id = some aid →
       db.findAccountById aid = some a →
       ∃ db', delete_transaction_by_id db uid txid = .ok db' ∧
         db'.balanceOf aid = some (a.balance - tx.amount) ∧
         db'.transactions =
           db.transactions.eraseP (fun t => t.id == txid && t.user_id == uid)) ∧
    (∀ aid a, tx.type = .EXPENSE → tx.account_id = some aid →
       db.findAccountById aid = some a →
       ∃ db', delete_transaction_by_id db uid txid = .ok db' ∧
         db'.balanceOf aid = some (a.balance + tx.amount) ∧
         db'.transactions =
           db.transactions.eraseP (fun t => t.id == txid && t.user_id == uid)) ∧
    (∀ fid tid f t, tx.type = .TRANSFER → tx.from_account_id = some fid →
       tx.to_account_id = some tid → fid ≠ tid →
       db.findAccountById fid = some f → db.findAccountById tid = some t →
       ∃ db', delete_transaction_by_id db uid txid = .ok db' ∧
         db'.balanceOf fid = some (f.balance + tx.amount) ∧
         db'.balanceOf tid = some (t.balance - tx.amount) ∧
         db'.transactions =
           db.transactions.eraseP (fun t => t.id == txid && t.user_id == uid)) :=
  ⟨delete_reverses_income db uid txid tx htx,
   delete_reverses_expense db uid txid tx htx,
   delete_reverses_transfer db uid txid tx htx⟩

def c7cash : Account := { exCash with balance := 100 }

def c7wallet : Account := { exWallet with balance := 10 }

/-- A recorded cross-currency transfer: 900 RUB were debited, 10 USD
credited, but only the debit amount is stored on the row. -/
def c7tx : Transaction :=
  { id := 1, user_id := 1, type := .TRANSFER, amount := 900, currency := "RUB",
    account_id := none, from_account_id := some 1, to_account_id := some 2,
    category := none, subcategory := none, description := none, operation_date := 0 }

def c7db : DB :=
  { users := [exUser], accounts := [c7cash, c7wallet], transactions := [c7tx],
    pendings := [], nextTxId := 2, nextAccountId := 3 }

/-- Witness for C7: deleting the recorded cross-currency transfer credits
the source and debits the destination by the 900 debit amount, driving
the USD account to -890 — the reversal asymmetry the claim describes. -/
theorem C7_delete_reverses_witness :
    (delete_transaction_by_id c7db 1 1).map
      (fun d => (d.balanceOf 1, d.balanceOf 2, d.transactions.length)) =
      .ok (some 1000, some (-890), 0) := by
  obtain ⟨db', heq, hb1, hb2, htxs⟩ :=
    (C7_delete_reverses c7db 1 1 c7tx (by decide)).2.2 1 2 c7cash c7wallet
      (by decide) (by decide) (by decide) (by decide) (by decide) (by decide)
  rw [heq]
  simp only [Except.map]
  rw [hb1, hb2, htxs]
  rfl

/-- C8: for every account and every positive amount within its balance,
`add_expense` followed by `delete_transaction_by_id` on the freshly
created row restores the balance to exactly its prior value (and the
transaction list to exactly its prior rows) — exact fixed-point
arithmetic, no drift. -/
theorem C8_expense_delete_roundtrip (db : DB) (uid aid : Nat) (amount : Int)
    (currency : String) (cat sub dsc : Option String) (od : Option Int) (now : Int)
    (a : Account) (hacc : db.findAccountById aid = some a) (hu : a.user_id = uid)
    (hpos : 0 < amount) (hle : amount ≤ a.balance)
    (hfresh : ∀ t ∈ db.transactions, t.id ≠ db.nextTxId) :
    ∃ db₁ tx db₂,
      add_expense db uid amount currency aid cat sub dsc od now = .ok (db₁, tx) ∧
      delete_transaction_by_id db₁ uid tx.id = .ok db₂ ∧
      db₂.balanceOf aid = some a.balance ∧
      db₂.transactions = db.transactions := by
  have hfind : db.findAccount aid uid = some a := findAccount_of_findAccountById hacc hu
  have hnge : ¬ a.balance < amount := not_lt.mpr hle
  rcases hexp : add_expense db uid amount currency aid cat sub dsc od now with e | pr
  · exfalso
    simp only [add_expense, hfind, if_neg hnge] at hexp
    exact absurd hexp (by simp)
  · have hpr : pr = ({ db.updateAccount aid
          (fun x => { x with balance := x.balance - amount }) with
        transactions := db.transactions ++
          [{ id := db.nextTxId, user_id := uid, type := .EXPENSE, amount := amount,
             currency := currency, account_id := some aid, from_account_id := none,
             to_account_id := none, category := cat, subcategory := sub,
             description := dsc, operation_date := od.getD now }],
        nextTxId := db.nextTxId + 1 },
      ({ id := db.nextTxId, user_id := uid, type := .EXPENSE, amount := amount,
         currency := currency, account_id := some aid, from_account_id := none,
         to_account_id := none, category := cat, subcategory := sub,
         description := dsc, operation_date := od.getD now })) := by
      have h2 := hexp
      simp only [add_expense, hfind, if_neg hnge, Except.ok.injEq] at h2
      exact h2.symm
    -- the fresh row is the first (and only) match for the delete query
    have hq : ∀ t ∈ db.transactions, ((fun t => t.id == db.nextTxId && t.user_id == uid) t) = false := by
      intro t ht
      have := hfresh t ht
      simp [this]
    have hnone : db.transactions.find? (fun t => t.id == db.nextTxId && t.user_id == uid) = none := by
      apply List.find?_eq_none.mpr
      intro t ht
      simp [hq t ht]
    have hfindTx : pr.1.transactions.find?
        (fun t => t.id == db.nextTxId && t.user_id == uid) = some pr.2 := by
      rw [hpr]
      show (db.transactions ++ [_]).find? _ = _
      rw [find?_append_of_none hnone]
      simp
    have hacc1 : pr.1.findAccountById aid =
        some { a with balance := a.balance - amount } := by
      rw [hpr]
      show (db.updateAccount aid fun x => { x with balance := x.balance - amount }).findAccountById
          aid = _
      rw [findAccountById_update_hit
            (fun x => { x with balance := x.balance - amount }) (fun x => rfl) hacc]
    have htxid : pr.2.id = db.nextTxId := by rw [hpr]
    obtain ⟨db₂, hdel, hbal, htxs⟩ :=
      delete_reverses_expense pr.1 uid db.nextTxId pr.2 hfindTx aid
        { a with balance := a.balance - amount }
        (by rw [hpr]) (by rw [hpr]) hacc1
    refine ⟨pr.1, pr.2, db₂, rfl, ?_, ?_, ?_⟩
    · rw [htxid]
      exact hdel
    · rw [hbal]
      show some (a.balance - amount + pr.2.amount) = some a.balance
      rw [hpr]
      show some (a.balance - amount + amount) = some a.balance
      congr 1
      omega
    · rw [htxs, hpr]
      show (db.transactions ++ [_]).eraseP _ = db.transactions
      rw [eraseP_split [] hq (by simp)]
      exact List.append_nil db.transactions

/-- Witness for C8 at the scenario: balance 1000, expense 300 (balance
700 in between), delete — balance exactly 1000 again, no row left. -/
theorem C8_expense_delete_roundtrip_witness :
    ((add_expense c3db 1 300 "RUB" 1 none none none none 0).bind
      (fun r => delete_transaction_by_id r.1 1 r.2.id)).map
        (fun d => (d.balanceOf 1, d.transactions.length)) = .ok (some 1000, 0) := by
  obtain ⟨db₁, tx, db₂, h1, h2, h3, h4⟩ :=
    C8_expense_delete_roundtrip c3db 1 1 300 "RUB" none none none none 0 exCash
      (by decide) (by decide) (by decide) (by decide) (by decide)
  rw [h1]
  show (delete_transaction_by_id db₁ 1 tx.id).map
    (fun d => (d.balanceOf 1, d.transactions.length)) = .ok (some 1000, 0)
  rw [h2]
  simp only [Except.map]
  rw [h3, h4]
  rfl

/-! ## Account-name resolution (C9) -/

/-- The exact (case-insensitive) name predicate of `find_account_by_name`. -/
def exactNameMatch (q : String) (a : Account) : Bool :=
  strLower a.name == strLower q

/-- The fuzzy containment predicate of `find_account_by_name`: the lowered
query occurs in the lowered name or vice versa. -/
def fuzzyNameMatch (q : String) (a : Account) : Bool :=
  isSubstr (strLower q).data (strLower a.name).data ||
  isSubstr (strLower a.name).data (strLower q).data

/-- C9: name resolution returns the first account (in creation order) of
the user whose name matches the query case-insensitively; failing that,
the first whose lowered name contains or is contained in the lowered
query; failing both, nothing. -/
theorem C9_name_resolution (db : DB) (uid : Nat) (qs : String) :
    (find_account_by_name db uid qs false = none →
       ∀ a ∈ db.accounts.filter (fun x => x.user_id == uid),
         exactNameMatch qs a = false ∧ fuzzyNameMatch qs a = false) ∧
    (∀ a, find_account_by_name db uid qs false = some a →
       (exactNameMatch qs a = true ∧
          ∃ l₁ l₂, db.accounts.filter (fun x => x.user_id == uid) = l₁ ++ a :: l₂ ∧
            ∀ b ∈ l₁, exactNameMatch qs b = false) ∨
       ((∀ b ∈ db.accounts.filter (fun x => x.user_id == uid),
            exactNameMatch qs b = false) ∧
          fuzzyNameMatch qs a = true ∧
          ∃ l₁ l₂, db.accounts.filter (fun x => x.user_id == uid) = l₁ ++ a :: l₂ ∧
            ∀ b ∈ l₁, fuzzyNameMatch qs b = false)) := by
  constructor
  · intro hnone a ha
    rcases hex : (db.accounts.filter (fun x => x.user_id == uid)).find?
        (fun acc => strLower acc.name == strLower qs) with _ | a0
    · have hfz : (db.accounts.filter (fun x => x.user_id == uid)).find?
          (fun acc => isSubstr (strLower qs).data (strLower acc.name).data ||
            isSubstr (strLower acc.name).data (strLower qs).data) = none := by
        have h2 := hnone
        simp only [find_account_by_name, hex] at h2
        simpa using h2
      constructor
      · simpa [exactNameMatch] using List.find?_eq_none.mp hex a ha
      · simpa [fuzzyNameMatch] using List.find?_eq_none.mp hfz a ha
    · exfalso
      have h2 := hnone
      simp only [find_account_by_name, hex] at h2
      exact Option.noConfusion h2
  · intro a hfind
    rcases hex : (db.accounts.filter (fun x => x.user_id == uid)).find?
        (fun acc => strLower acc.name == strLower qs) with _ | a0
    · right
      have hfz : (db.accounts.filter (fun x => x.user_id == uid)).find?
          (fun acc => isSubstr (strLower qs).data (strLower acc.name).data ||
            isSubstr (strLower acc.name).data (strLower qs).data) = some a := by
        have h2 := hfind
        simp only [find_account_by_name, hex] at h2
        simpa using h2
      obtain ⟨l₁, l₂, hsp, hfail⟩ := find?_split hfz
      refine ⟨fun b hb => by simpa [exactNameMatch] using List.find?_eq_none.mp hex b hb,
              by simpa [fuzzyNameMatch] using List.find?_some hfz, l₁, l₂, hsp,
              fun b hb => by simpa [fuzzyNameMatch] using hfail b hb⟩
    · left
      have ha : a0 = a := by
        have h2 := hfind
        simp only [find_account_by_name, hex] at h2
        simpa using h2
      subst ha
      obtain ⟨l₁, l₂, hsp, hfail⟩ := find?_split hex
      exact ⟨by simpa [exactNameMatch] using List.find?_some hex, l₁, l₂, hsp,
             fun b hb => by simpa [exactNameMatch] using hfail b hb⟩

def c9cash2 : Account :=
  { id := 2, user_id := 1, name := "Cash2", currency := "RUB", balance := 0,
    is_default := false }

def c9db : DB :=
  { users := [exUser], accounts := [exCash, c9cash2], transactions := [],
    pendings := [], nextTxId := 1, nextAccountId := 3 }

/-- Witness for C9: the query "zzz" resolves to nothing, so no account of
the user matches it exactly or by containment; while "cas" resolves (to
the first account, by containment). -/
theorem C9_name_resolution_witness :
    (find_account_by_name c9db 1 "zzz" false = none ∧
      exactNameMatch "zzz" exCash = false ∧ fuzzyNameMatch "zzz" exCash = false) ∧
    (find_account_by_name c9db 1 "cas" false).map (fun a => a.id) = some 1 :=
  ⟨⟨by decide, (C9_name_resolution c9db 1 "zzz").1 (by decide) exCash (by decide)⟩,
   by decide⟩

/-! ## The TRANSFER edit gap (C10) -/

/-- The signed effect a stored transaction row has on an account's
balance: income credits, expense debits, a transfer debits its source
and credits its destination by the stored amount. -/
def signedEffect (accId : Nat) (t : Transaction) : Int :=
  match t.type with
  | .INCOME => if t.account_id == some accId then t.amount else 0
  | .EXPENSE => if t.account_id == some accId then -t.amount else 0
  | .TRANSFER =>
      (if t.from_account_id == some accId then -t.amount else 0) +
      (if t.to_account_id == some accId then t.amount else 0)

/-- The sum of the signed effects of all stored rows on an account. -/
def signedSum (db : DB) (accId : Nat) : Int :=
  (db.transactions.map (signedEffect accId)).sum

/-- C10: editing a TRANSFER's amount through `update_transaction`
rewrites the stored amount but adjusts no account balance (the delta
branch only covers INCOME and EXPENSE), so the signed-effect sum of the
source account shifts by the old amount minus the new one while every
balance stays put — the balance/ledger-sum invariant is broken. -/
theorem C10_transfer_edit_no_balance_adjust (db : DB) (uid txid : Nat)
    (tx : Transaction) (newAmt : Int) (accId : Nat)
    (htx : db.transactions.find? (fun t => t.id == txid && t.user_id == uid) = some tx)
    (htype : tx.type = .TRANSFER) (hne : newAmt ≠ tx.amount)
    (hfrom : tx.from_account_id = some accId) (hto : tx.to_account_id ≠ some accId) :
    ∃ db', update_transaction db uid txid (some newAmt) none none = .ok db' ∧
      db'.accounts = db.accounts ∧
      (db'.transactions.find? (fun t => t.id == txid && t.user_id == uid)).map
        (fun t => t.amount) = some newAmt ∧
      signedSum db' accId = signedSum db accId + (tx.amount - newAmt) ∧
      (∀ b : Int, b = signedSum db accId → b ≠ signedSum db' accId) := by
  have hbne : (newAmt != tx.amount) = true := by simp [bne_iff_ne]; exact hne
  have hptx : (tx.id == txid && tx.user_id == uid) = true := by
    have h0 := List.find?_some htx
    simpa using h0
  obtain ⟨l₁, l₂, hsp, hfail⟩ := find?_split htx
  rcases hupd : update_transaction db uid txid (some newAmt) none none with e | db'
  · exfalso
    simp only [update_transaction, htx, hbne, htype, if_true] at hupd
    exact absurd hupd (by simp)
  · have hdb' : db' = { db with transactions := modifyP (fun t => t.id == txid && t.user_id == uid) (fun _ => { tx with amount := newAmt }) db.transactions } := by
      have h2 := hupd
      simp only [update_transaction, htx, hbne, htype, if_true, Except.ok.injEq] at h2
      rw [← htype] at h2
      exact h2.symm
    have hmod : modifyP (fun t => t.id == txid && t.user_id == uid)
        (fun _ => { tx with amount := newAmt }) db.transactions =
          l₁ ++ { tx with amount := newAmt } :: l₂ := by
      rw [hsp]
      exact modifyP_split _ l₂ hfail hptx
    have hsum' : signedSum db' accId = signedSum db accId + (tx.amount - newAmt) := by
      rw [hdb']
      unfold signedSum
      show ((modifyP _ _ db.transactions).map (signedEffect accId)).sum = _
      rw [hmod, hsp]
      simp only [List.map_append, List.sum_append, List.map_cons, List.sum_cons]
      have hefftx : signedEffect accId tx = -tx.amount := by
        simp [signedEffect, htype, hfrom, hto]
      have hefft3 : signedEffect accId { tx with amount := newAmt } = -newAmt := by
        simp [signedEffect, htype, hfrom, hto]
      rw [hefftx, hefft3]
      ring
    refine ⟨db', rfl, by rw [hdb'], ?_, hsum', ?_⟩
    · rw [hdb']
      show ((modifyP _ _ db.transactions).find? _).map (fun t => t.amount) = some newAmt
      rw [hmod]
      have hleft : l₁.find? (fun t => t.id == txid && t.user_id == uid) = none :=
        List.find?_eq_none.mpr (fun x hx => by simp [hfail x hx])
      rw [find?_append_of_none hleft, List.find?_cons_of_pos _ (by simpa using hptx)]
      rfl
    · intro b hb
      rw [hb, hsum']
      intro hcontra
      have : tx.amount - newAmt = 0 := by omega
      exact hne (by omega)

/-- Witness for C10: editing the stored 900-debit transfer to amount 500
leaves both balances untouched while the stored amount and the signed
sum change. -/
theorem C10_transfer_edit_no_balance_adjust_witness :
    (update_transaction c7db 1 1 (some 500) none none).map
      (fun d => (d.accounts, signedSum d 1)) = .ok (c7db.accounts, -500) := by
  obtain ⟨db', hupd, haccs, hamt, hsum, hneq⟩ :=
    C10_transfer_edit_no_balance_adjust c7db 1 1 c7tx 500 1 (by decide) (by decide)
      (by decide) (by decide) (by decide)
  rw [hupd]
  simp only [Except.map]
  rw [haccs, hsum]
  rfl

end Scrooge
